import Mathlib

/-!
Shallow embedding of the task-management API (Django/DRF app `tasks`):
`src/tasks/models.py`, `src/tasks/serializers.py`, `src/tasks/views.py`.

Timestamps are modelled as integers, user and task primary keys as
naturals, and the database as lists of records inside a `Store`.
Randomness (token keys) and the clock are passed as explicit arguments.
Fallible operations return `Except Err`, with `Err` the spec's error
taxonomy; an operation that fails returns no store, so "the store is
unchanged on failure" holds by construction.
-/

namespace TaskAPI

/-- Equality of results is decidable, so concrete runs can be checked by
evaluation. -/
instance instDecEqExcept {ε α : Type} [DecidableEq ε] [DecidableEq α] :
    DecidableEq (Except ε α) := fun a b =>
  match a, b with
  | .ok x, .ok y =>
      if h : x = y then .isTrue (by rw [h]) else .isFalse (by simp [h])
  | .error x, .error y =>
      if h : x = y then .isTrue (by rw [h]) else .isFalse (by simp [h])
  | .ok _, .error _ => .isFalse (by simp)
  | .error _, .ok _ => .isFalse (by simp)

/-- Error kinds of the spec's section 7. -/
inductive Err where
  | invalidField
  | duplicateEmail
  | weakPassword
  | passwordMismatch
  | invalidCredentials
  | accountDisabled
  | invalidToken
  | noActiveSession
  | notFound
deriving DecidableEq, Repr

/-- Task.STATUS_CHOICES in models.py: pending or completed. -/
inductive Status where
  | pending
  | completed
deriving DecidableEq, Repr

/-- Task model (models.py lines 7-61): owner, title, optional description,
status (default pending), optional due date, created/updated timestamps. -/
structure Task where
  id : Nat
  userId : Nat
  title : String
  description : Option String
  status : Status
  dueDate : Option Int
  createdAt : Int
  updatedAt : Int
deriving DecidableEq, Repr

/-- A row of django.contrib.auth.models.User, restricted to the fields the
claims touch. Passwords are stored only as hashes. -/
structure StoredUser where
  id : Nat
  username : String
  email : String
  passwordHash : String
  isActive : Bool
deriving DecidableEq, Repr

/-- One rest_framework.authtoken Token row: one-to-one with a user. -/
structure AuthToken where
  userId : Nat
  key : String
deriving DecidableEq, Repr

/-- The persistence layer: user, task and token tables plus primary-key
counters. -/
structure Store where
  users : List StoredUser
  tasks : List Task
  tokens : List AuthToken
  nextUserId : Nat
  nextTaskId : Nat
deriving DecidableEq, Repr

/-- Python's str.strip(): drop whitespace from both ends. -/
def pyStrip (s : String) : String :=
  String.mk (((s.data.dropWhile Char.isWhitespace).reverse.dropWhile
    Char.isWhitespace).reverse)

/-- Python's str.lower(): every character lowercased. -/
def pyLower (s : String) : String := String.mk (s.data.map Char.toLower)

/-- Python's str.isalnum(): nonempty and every character alphanumeric
(restricted here to the ASCII classes the claims exercise). -/
def pyIsalnum (s : String) : Bool :=
  !s.data.isEmpty && s.data.all Char.isAlphanum

/-- Abstract, injective model of Django's salted password hasher. -/
def pwHash (p : String) : String := "pbkdf2-sha256$" ++ p

/-- TaskSerializer.validate_title (serializers.py lines 35-43): reject a
title that is empty after stripping, otherwise return the stripped value. -/
def validate_title (value : String) : Except Err String :=
  if pyStrip value = "" then .error .invalidField
  else .ok (pyStrip value)

/-- TaskSerializer.validate_due_date (serializers.py lines 24-33) and
Task.clean (models.py lines 78-84): only for a new record (no instance /
no pk), a due date strictly before now is rejected. -/
def validate_due_date (value : Option Int) (is_new : Bool) (now : Int) :
    Except Err (Option Int) :=
  match value with
  | none => .ok none
  | some v =>
      if is_new && decide (v < now) then .error .invalidField
      else .ok (some v)

/-- UserSerializer.validate_email (serializers.py lines 78-86): fail when a
user row has exactly this email string (the ORM filter is a case-sensitive
equality), else return the value lowercased for storage. -/
def validate_email (users : List StoredUser) (value : String) :
    Except Err String :=
  if users.any (fun u => decide (u.email = value)) then .error .duplicateEmail
  else .ok (pyLower value)

/-- UserSerializer.validate_username (serializers.py lines 88-96): the code
raises only when the value is not alphanumeric AND contains no underscore. -/
def validate_username (value : String) : Except Err String :=
  if !(pyIsalnum value) && !(value.data.contains '_') then .error .invalidField
  else .ok value

/-- Character class of Django's UnicodeUsernameValidator (regex [\w.@+-]),
attached to the username model field and run by the ModelSerializer. -/
def django_username_char (c : Char) : Bool :=
  c.isAlphanum || c = '_' || c = '.' || c = '@' || c = '+' || c = '-'

/-- Django's UnicodeUsernameValidator on the username model field. -/
def django_username_ok (s : String) : Bool :=
  !s.data.isEmpty && s.data.all django_username_char

/-- Registration input accepted by UserSerializer (first/last name elided:
optional free text with no validation). -/
structure RegInput where
  username : String
  email : String
  password : String
  password_confirm : String
deriving DecidableEq, Repr

/-- UserRegistrationView.post with UserSerializer (serializers.py lines
46-127): field validation in declaration order (username: framework
validator, uniqueness, then validate_username; email format validation is
framework boilerplate and elided; password min_length 8), then the
cross-field password match, then create_user with hashed password and a
fresh auth token (`fresh` models the random key). -/
def register (s : Store) (inp : RegInput) (fresh : String) :
    Except Err (Store × StoredUser) :=
  if !(django_username_ok inp.username) then .error .invalidField else
  if s.users.any (fun u => decide (u.username = inp.username)) then
    .error .invalidField else
  match validate_username inp.username with
  | .error e => .error e
  | .ok uname =>
    match validate_email s.users inp.email with
    | .error e => .error e
    | .ok email =>
      if inp.password.length < 8 then .error .weakPassword else
      if inp.password ≠ inp.password_confirm then .error .passwordMismatch else
      let u : StoredUser :=
        { id := s.nextUserId, username := uname, email := email,
          passwordHash := pwHash inp.password, isActive := true }
      .ok ({ s with users := u :: s.users,
                    tokens := ⟨u.id, fresh⟩ :: s.tokens,
                    nextUserId := s.nextUserId + 1 }, u)

/-- Django authenticate() via ModelBackend: look the user up by username and
check password hash and active flag. -/
def authenticate (s : Store) (username password : String) :
    Option StoredUser :=
  match s.users.find? (fun u => decide (u.username = username)) with
  | none => none
  | some u =>
      if u.passwordHash = pwHash password ∧ u.isActive then some u else none

/-- Token.objects.get_or_create(user=user) used by the login and
registration views: return the existing token if one exists, otherwise
persist a new one with the fresh random key. -/
def get_or_create_token (s : Store) (userId : Nat) (fresh : String) :
    Store × String :=
  match s.tokens.find? (fun t => decide (t.userId = userId)) with
  | some tk => (s, tk.key)
  | none => ({ s with tokens := ⟨userId, fresh⟩ :: s.tokens }, fresh)

/-- UserLoginView.post (views.py lines 150-186) with AuthTokenSerializer:
authenticate, reject an inactive account, then get-or-create the token. -/
def login (s : Store) (username password fresh : String) :
    Except Err (Store × String) :=
  match authenticate s username password with
  | none => .error .invalidCredentials
  | some u =>
      if ¬u.isActive then .error .accountDisabled
      else .ok (get_or_create_token s u.id fresh)

/-- Token rows remaining after deleting user userId's token row. -/
def tokens_without (s : Store) (userId : Nat) : List AuthToken :=
  s.tokens.filter (fun t => decide (t.userId ≠ userId))

/-- UserLogoutView.post (views.py lines 189-211): deleting
request.user.auth_token succeeds when the user has a token and raises
(reported as an error) when none exists. -/
def logout (s : Store) (userId : Nat) : Except Err Store :=
  if s.tokens.any (fun t => decide (t.userId = userId)) then
    .ok { s with tokens := tokens_without s userId }
  else .error .noActiveSession

/-- TaskViewSet.get_queryset (views.py lines 36-42): only the caller's own
tasks. -/
def list_tasks (s : Store) (callerId : Nat) : List Task :=
  s.tasks.filter (fun t => decide (t.userId = callerId))

/-- TaskViewSet.pending (views.py lines 57-64): queryset filtered to
status pending. -/
def list_pending (s : Store) (callerId : Nat) : List Task :=
  (list_tasks s callerId).filter (fun t => decide (t.status = .pending))

/-- TaskViewSet.completed (views.py lines 66-73): queryset filtered to
status completed. -/
def list_completed (s : Store) (callerId : Nat) : List Task :=
  (list_tasks s callerId).filter (fun t => decide (t.status = .completed))

/-- TaskViewSet.overdue (views.py lines 75-86): queryset filtered to
status pending with a due date strictly before now. -/
def list_overdue (s : Store) (callerId : Nat) (now : Int) : List Task :=
  (list_tasks s callerId).filter (fun t =>
    (match t.dueDate with
     | some d => decide (d < now)
     | none => false) && decide (t.status = .pending))

/-- DRF get_object: look the pk up inside the caller-scoped queryset;
a miss is reported as NotFound. -/
def find_owned (s : Store) (callerId taskId : Nat) : Option Task :=
  s.tasks.find? (fun x => decide (x.id = taskId ∧ x.userId = callerId))

/-- TaskViewSet retrieve: get_object on the scoped queryset. -/
def get_task (s : Store) (callerId taskId : Nat) : Except Err Task :=
  match find_owned s callerId taskId with
  | none => .error .notFound
  | some t => .ok t

/-- Input to task creation: the serializer's writable fields (user,
created_at and updated_at are read-only; an absent status defaults to
pending per the model field default). -/
structure TaskInput where
  title : String
  description : Option String
  status : Option Status
  due_date : Option Int
deriving DecidableEq, Repr

/-- Fields of a (partial) task update; `none` means the field is absent
from the request and keeps its stored value. -/
structure TaskPatch where
  title : Option String
  description : Option (Option String)
  status : Option Status
  due_date : Option (Option Int)
deriving DecidableEq, Repr

/-- TaskViewSet create with perform_create (views.py lines 44-49) and
TaskSerializer: the serializer checks the model field max_length 255 on the
raw title, then validate_title, then validate_due_date with no instance;
Task.save runs full_clean (due-date check skipped only when a pk exists —
here there is none, but the serializer already checked; max_length checked
again on the stored title); the owner is forced to the caller and both
timestamps are set to now. -/
def create_task (s : Store) (callerId : Nat) (now : Int) (inp : TaskInput) :
    Except Err (Store × Task) :=
  if inp.title.length > 255 then .error .invalidField else
  match validate_title inp.title with
  | .error e => .error e
  | .ok title =>
    match validate_due_date inp.due_date true now with
    | .error e => .error e
    | .ok due =>
      if title.length > 255 then .error .invalidField else
      let t : Task :=
        { id := s.nextTaskId, userId := callerId, title := title,
          description := inp.description,
          status := inp.status.getD .pending,
          dueDate := due, createdAt := now, updatedAt := now }
      .ok ({ s with tasks := t :: s.tasks,
                    nextTaskId := s.nextTaskId + 1 }, t)

/-- TaskViewSet update with perform_update (views.py lines 51-55):
get_object on the scoped queryset (NotFound on a miss), then serializer
validation with an instance present — title max_length and strip-check when
supplied, validate_due_date skipped because self.instance is set — then
save with the owner kept as the caller and updated_at refreshed;
Task.clean's past-due check is also skipped because the pk is set.
Title leg of serializer validation on update: an absent field keeps the
stored value; a supplied one goes through max_length and validate_title. -/
def update_title_field (t : Task) (p : TaskPatch) : Except Err String :=
  match p.title with
  | none => .ok t.title
  | some raw =>
      if raw.length > 255 then .error .invalidField
      else validate_title raw

/-- Due-date leg of serializer validation on update: an absent field keeps
the stored value; a supplied one goes through validate_due_date with the
instance present, so the past-due check is skipped. -/
def update_due_field (t : Task) (p : TaskPatch) (now : Int) :
    Except Err (Option Int) :=
  match p.due_date with
  | none => .ok t.dueDate
  | some v => validate_due_date v false now

/-- Saving a mutated task: the ORM UPDATEs the row with the task's pk. -/
def save_task (s : Store) (t2 : Task) : Store :=
  { s with tasks := s.tasks.map (fun x => if x.id = t2.id then t2 else x) }

/-- TaskViewSet update with perform_update (views.py lines 51-55):
get_object on the scoped queryset (NotFound on a miss), then the serializer
field legs above, then save with the owner kept as the caller and
updated_at refreshed. -/
def update_task (s : Store) (callerId : Nat) (now : Int) (taskId : Nat)
    (p : TaskPatch) : Except Err (Store × Task) :=
  match find_owned s callerId taskId with
  | none => .error .notFound
  | some t =>
    match update_title_field t p with
    | .error e => .error e
    | .ok title =>
      match update_due_field t p now with
      | .error e => .error e
      | .ok due =>
        let t2 : Task :=
          { t with title := title,
                   description := p.description.getD t.description,
                   status := p.status.getD t.status,
                   dueDate := due, updatedAt := now }
        .ok (save_task s t2, t2)

/-- TaskViewSet.complete (views.py lines 88-97): get_object on the scoped
queryset, set status to completed and save (updated_at auto-refreshed;
Task.clean's past-due check skipped because the pk is set). -/
def complete_task (s : Store) (callerId : Nat) (now : Int) (taskId : Nat) :
    Except Err (Store × Task) :=
  match find_owned s callerId taskId with
  | none => .error .notFound
  | some t =>
    let t2 : Task := { t with status := .completed, updatedAt := now }
    .ok (save_task s t2, t2)

/-- TaskViewSet.destroy (views.py lines 99-108): get_object on the scoped
queryset, then delete the row by pk. -/
def delete_task (s : Store) (callerId taskId : Nat) : Except Err Store :=
  match find_owned s callerId taskId with
  | none => .error .notFound
  | some _ => .ok { s with tasks := s.tasks.filter (fun x => decide (x.id ≠ taskId)) }

/-- Deleting a User: the ForeignKey Task.user and the token's user field
both carry on_delete=CASCADE (models.py lines 20-25), so the user's tasks
and token rows are removed with the user row. -/
def delete_user (s : Store) (userId : Nat) : Store :=
  { s with users := s.users.filter (fun u => decide (u.id ≠ userId)),
           tasks := s.tasks.filter (fun t => decide (t.userId ≠ userId)),
           tokens := s.tokens.filter (fun t => decide (t.userId ≠ userId)) }

/-- Empty database. -/
def emptyStore : Store := ⟨[], [], [], 0, 0⟩

/-- A registered user whose stored email is already lowercased. -/
def alice : StoredUser := ⟨0, "alice", "a@b.com", pwHash "password1", true⟩

/-- A store holding alice and her auth token. -/
def aliceStore : Store := ⟨[alice], [], [⟨0, "t0"⟩], 1, 0⟩

/-- A registration whose email differs from alice's only in letter case. -/
def caseVariantReg : RegInput := ⟨"bob", "A@b.com", "password1", "password1"⟩

/-- A registration whose username contains a dash, an invalid character,
next to an underscore. -/
def dashUnderscoreReg : RegInput := ⟨"a-b_c", "x@y.com", "password1", "password1"⟩

/-- A task owned by user 1, used to exercise cross-user access. -/
def sampleTask : Task := ⟨7, 1, "chore", none, .pending, some 5, 0, 0⟩

/-- A store holding only sampleTask. -/
def sampleStore : Store := ⟨[], [sampleTask], [], 3, 8⟩

/-- An update request carrying no fields. -/
def emptyPatch : TaskPatch := ⟨none, none, none, none⟩

/-- The user that registering caseVariantReg against aliceStore creates:
its stored email collides with alice's. -/
def bobDup : StoredUser := ⟨1, "bob", "a@b.com", pwHash "password1", true⟩

/-- A valid creation input for the Buy-milk scenario, with no status and a
future due date. -/
def buyMilk : TaskInput := ⟨"Buy milk", none, none, some 86400⟩

/-- The same creation input with a past due date (now is taken later). -/
def buyMilkPast : TaskInput := ⟨"Buy milk", none, none, some 0⟩

/-- The task created from buyMilk in the empty store at time 0 by user 0. -/
def buyMilkTask : Task := ⟨0, 0, "Buy milk", none, .pending, some 86400, 0, 0⟩

/-- The store after that creation. -/
def buyMilkStore : Store := ⟨[], [buyMilkTask], [], 0, 1⟩

/-- A creation input whose title is only whitespace. -/
def wsInput : TaskInput := ⟨"   ", none, none, none⟩

/-- A creation input whose title is 256 characters long. -/
def longTitleInput : TaskInput :=
  ⟨String.mk (List.replicate 256 'a'), none, none, none⟩

theorem validate_title_error {v : String} {e : Err}
    (h : validate_title v = .error e) : e = .invalidField := by
  unfold validate_title at h
  split at h
  · rw [Except.error.injEq] at h
    exact h.symm
  · exact Except.noConfusion h

theorem validate_title_ok {v w : String}
    (h : validate_title v = .ok w) : w = pyStrip v := by
  unfold validate_title at h
  split at h
  · exact Except.noConfusion h
  · rw [Except.ok.injEq] at h
    exact h.symm

theorem pyStrip_length_le (s : String) : (pyStrip s).length ≤ s.length := by
  have h1 : ((s.data.dropWhile Char.isWhitespace).reverse.dropWhile
      Char.isWhitespace).length ≤
      (s.data.dropWhile Char.isWhitespace).reverse.length :=
    (List.dropWhile_sublist _).length_le
  have h2 : (s.data.dropWhile Char.isWhitespace).length ≤ s.data.length :=
    (List.dropWhile_sublist _).length_le
  simp only [pyStrip, String.length, List.length_reverse] at *
  omega

theorem pyStrip_eq_empty {s : String}
    (h : ∀ c ∈ s.data, c.isWhitespace) : pyStrip s = "" := by
  have h1 : s.data.dropWhile Char.isWhitespace = [] :=
    List.dropWhile_eq_nil_iff.mpr h
  unfold pyStrip
  rw [h1]
  rfl

theorem validate_due_date_skipped_for_updates (v : Option Int) (now : Int) :
    validate_due_date v false now = .ok v := by
  unfold validate_due_date
  cases v <;> simp

theorem update_due_field_always_ok (t : Task) (p : TaskPatch) (now : Int) :
    update_due_field t p now = .ok (p.due_date.getD t.dueDate) := by
  unfold update_due_field
  cases p.due_date with
  | none => rfl
  | some v => simpa using validate_due_date_skipped_for_updates v now

theorem update_title_field_some (t : Task) (p : TaskPatch) (raw : String)
    (hp : p.title = some raw) :
    update_title_field t p =
      if raw.length > 255 then .error .invalidField
      else validate_title raw := by
  unfold update_title_field
  rw [hp]

theorem create_task_ok_inv {s : Store} {c : Nat} {now : Int}
    {inp : TaskInput} {s' : Store} {t : Task}
    (h : create_task s c now inp = .ok (s', t)) :
    ∃ due, validate_due_date inp.due_date true now = .ok due ∧
      t = { id := s.nextTaskId, userId := c, title := pyStrip inp.title,
            description := inp.description,
            status := inp.status.getD .pending,
            dueDate := due, createdAt := now, updatedAt := now } ∧
      s' = { s with tasks := t :: s.tasks,
                    nextTaskId := s.nextTaskId + 1 } := by
  unfold create_task at h
  split at h
  · exact Except.noConfusion h
  · cases hvt : validate_title inp.title with
    | error e =>
        simp only [hvt] at h
        exact Except.noConfusion h
    | ok title =>
        simp only [hvt] at h
        cases hvd : validate_due_date inp.due_date true now with
        | error e =>
            simp only [hvd] at h
            exact Except.noConfusion h
        | ok due =>
            simp only [hvd] at h
            split at h
            · exact Except.noConfusion h
            · rw [Except.ok.injEq, Prod.mk.injEq] at h
              obtain ⟨hs, ht⟩ := h
              obtain rfl := validate_title_ok hvt
              subst ht
              subst hs
              exact ⟨due, rfl, rfl, rfl⟩

/-- C4: creating a task with a due date strictly before now fails with
InvalidField; validate_due_date is skipped on updates, and the success of
update_task is independent of the supplied due date, so an update never
fails on account of the due date. On failure create_task returns no store,
so nothing is stored. -/
theorem past_due_rejected_only_on_create :
    (∀ (v : Option Int) (now : Int), validate_due_date v false now = .ok v) ∧
    (∀ (s : Store) (c : Nat) (now : Int) (inp : TaskInput) (d : Int),
      inp.due_date = some d → d < now →
      create_task s c now inp = .error .invalidField) ∧
    (∀ (s : Store) (c : Nat) (now : Int) (taskId : Nat) (p : TaskPatch)
      (q : Option (Option Int)),
      (update_task s c now taskId p).isOk =
        (update_task s c now taskId { p with due_date := q }).isOk) := by
  refine ⟨validate_due_date_skipped_for_updates, ?_, ?_⟩
  · intro s c now inp d hd hlt
    unfold create_task
    split
    · rfl
    · cases hvt : validate_title inp.title with
      | error e =>
          simp only [hvt]
          rw [validate_title_error hvt]
      | ok title =>
          have hdue : validate_due_date inp.due_date true now =
              .error .invalidField := by
            rw [hd]
            unfold validate_due_date
            simp [hlt]
          simp only [hvt, hdue]
  · intro s c now taskId p q
    unfold update_task
    cases hfo : find_owned s c taskId with
    | none => simp only [hfo]
    | some t =>
        have htf : update_title_field t { p with due_date := q } =
            update_title_field t p := rfl
        simp only [hfo, htf]
        cases htl : update_title_field t p with
        | error e => simp only [htl]
        | ok title =>
            simp only [htl, update_due_field_always_ok]
            rfl

theorem past_due_rejected_only_on_create_witness :
    buyMilkPast.due_date = some 0 ∧ (0 : Int) < 5 ∧
    create_task emptyStore 0 5 buyMilkPast = .error .invalidField :=
  ⟨rfl, by decide,
   past_due_rejected_only_on_create.2.1 emptyStore 0 5 buyMilkPast 0 rfl
     (by decide)⟩

/-- C5: a title that is only whitespace is rejected with InvalidField, on
create and on update of an existing task; a successful create or update
stores the stripped title and puts the stored record in the new store. On
failure no store is returned, so the store is unchanged. -/
theorem whitespace_titles_rejected_titles_trimmed :
    (∀ (s : Store) (c : Nat) (now : Int) (inp : TaskInput),
      (∀ ch ∈ inp.title.data, ch.isWhitespace) →
      create_task s c now inp = .error .invalidField) ∧
    (∀ (s : Store) (c : Nat) (now : Int) (taskId : Nat) (p : TaskPatch)
      (raw : String) (t0 : Task),
      p.title = some raw → (∀ ch ∈ raw.data, ch.isWhitespace) →
      find_owned s c taskId = some t0 →
      update_task s c now taskId p = .error .invalidField) ∧
    (∀ (s : Store) (c : Nat) (now : Int) (inp : TaskInput) (s' : Store)
      (t : Task),
      create_task s c now inp = .ok (s', t) →
      t.title = pyStrip inp.title ∧ t ∈ s'.tasks) ∧
    (∀ (s : Store) (c : Nat) (now : Int) (taskId : Nat) (p : TaskPatch)
      (raw : String) (s' : Store) (t2 : Task),
      p.title = some raw → update_task s c now taskId p = .ok (s', t2) →
      t2.title = pyStrip raw ∧ t2 ∈ s'.tasks) := by
  refine ⟨?_, ?_, ?_, ?_⟩
  · intro s c now inp hws
    have hps := pyStrip_eq_empty hws
    have hvt : validate_title inp.title = .error .invalidField := by
      unfold validate_title
      rw [hps]
      simp
    unfold create_task
    split
    · rfl
    · simp only [hvt]
  · intro s c now taskId p raw t0 hp hws hfo
    have hps := pyStrip_eq_empty hws
    have htl : update_title_field t0 p = .error .invalidField := by
      rw [update_title_field_some t0 p raw hp]
      by_cases hr : raw.length > 255
      · rw [if_pos hr]
      · rw [if_neg hr]
        unfold validate_title
        rw [hps]
        simp
    unfold update_task
    simp only [hfo, htl]
  · intro s c now inp s' t h
    obtain ⟨due, _, ht, hs⟩ := create_task_ok_inv h
    subst ht
    subst hs
    exact ⟨rfl, List.mem_cons_self _ _⟩
  · intro s c now taskId p raw s' t2 hp h
    unfold update_task at h
    cases hfo : find_owned s c taskId with
    | none =>
        rw [hfo] at h
        exact Except.noConfusion h
    | some t =>
        simp only [hfo] at h
        cases htl : update_title_field t p with
        | error e =>
            simp only [htl] at h
            exact Except.noConfusion h
        | ok title =>
            simp only [htl, update_due_field_always_ok] at h
            rw [Except.ok.injEq, Prod.mk.injEq] at h
            obtain ⟨hs, ht2⟩ := h
            have htitle : title = pyStrip raw := by
              rw [update_title_field_some t p raw hp] at htl
              by_cases hr : raw.length > 255
              · rw [if_pos hr] at htl
                exact Except.noConfusion htl
              · rw [if_neg hr] at htl
                exact validate_title_ok htl
            subst ht2
            subst hs
            constructor
            · exact htitle
            · unfold find_owned at hfo
              have htmem : t ∈ s.tasks := List.mem_of_find?_eq_some hfo
              unfold save_task
              exact List.mem_map.mpr ⟨t, htmem, if_pos rfl⟩

theorem whitespace_titles_rejected_titles_trimmed_witness :
    (∀ ch ∈ wsInput.title.data, ch.isWhitespace) ∧
    create_task emptyStore 0 0 wsInput = .error .invalidField ∧
    create_task emptyStore 0 0 buyMilk = .ok (buyMilkStore, buyMilkTask) ∧
    (buyMilkTask.title = pyStrip buyMilk.title ∧
      buyMilkTask ∈ buyMilkStore.tasks) :=
  ⟨by decide,
   whitespace_titles_rejected_titles_trimmed.1 emptyStore 0 0 wsInput
     (by decide),
   rfl,
   whitespace_titles_rejected_titles_trimmed.2.2.1 emptyStore 0 0 buyMilk
     buyMilkStore buyMilkTask rfl⟩

/-- C10: a title longer than 255 characters after stripping is rejected as
a validation error: the raw value is then also longer than 255 characters,
so the serializer's max_length check from the model field fails, on create
and on update of an existing task, and no store is returned. The spec does
not state this limit. -/
theorem title_over_255_rejected :
    (∀ (s : Store) (c : Nat) (now : Int) (inp : TaskInput),
      (pyStrip inp.title).length > 255 →
      create_task s c now inp = .error .invalidField) ∧
    (∀ (s : Store) (c : Nat) (now : Int) (taskId : Nat) (p : TaskPatch)
      (raw : String) (t0 : Task),
      p.title = some raw → (pyStrip raw).length > 255 →
      find_owned s c taskId = some t0 →
      update_task s c now taskId p = .error .invalidField) := by
  constructor
  · intro s c now inp hlen
    have hraw : inp.title.length > 255 :=
      lt_of_lt_of_le hlen (pyStrip_length_le inp.title)
    unfold create_task
    rw [if_pos hraw]
  · intro s c now taskId p raw t0 hp hlen hfo
    have hraw : raw.length > 255 :=
      lt_of_lt_of_le hlen (pyStrip_length_le raw)
    have htl : update_title_field t0 p = .error .invalidField := by
      rw [update_title_field_some t0 p raw hp, if_pos hraw]
    unfold update_task
    simp only [hfo, htl]

set_option maxRecDepth 10000 in
theorem title_over_255_rejected_witness :
    (pyStrip longTitleInput.title).length > 255 ∧
    create_task emptyStore 0 0 longTitleInput = .error .invalidField :=
  ⟨by decide,
   title_over_255_rejected.1 emptyStore 0 0 longTitleInput (by decide)⟩

theorem find_owned_none_of_other_user {s : Store} {t : Task} {u2 : Nat}
    (hids : ∀ x ∈ s.tasks, x.id = t.id → x = t)
    (hne : t.userId ≠ u2) : find_owned s u2 t.id = none := by
  unfold find_owned
  rw [List.find?_eq_none]
  intro x hx hpx
  rw [decide_eq_true_eq] at hpx
  obtain ⟨hid, huser⟩ := hpx
  obtain rfl := hids x hx hid
  exact hne huser

/-- C1: a task owned by user u1 is invisible to a different user u2: it
appears in none of u2's list views, and u2's get, update, complete and
delete on its id all fail with NotFound; a failing operation returns no
store, so the task is unchanged. Primary keys are assumed unique, as the
database guarantees. -/
theorem owner_scoping_isolates_tasks (s : Store) (t : Task) (u1 u2 : Nat)
    (now : Int) (p : TaskPatch)
    (ht : t ∈ s.tasks) (howner : t.userId = u1) (hne : u2 ≠ u1)
    (hids : ∀ x ∈ s.tasks, x.id = t.id → x = t) :
    t ∉ list_tasks s u2 ∧ t ∉ list_pending s u2 ∧
    t ∉ list_completed s u2 ∧ t ∉ list_overdue s u2 now ∧
    get_task s u2 t.id = .error .notFound ∧
    update_task s u2 now t.id p = .error .notFound ∧
    complete_task s u2 now t.id = .error .notFound ∧
    delete_task s u2 t.id = .error .notFound := by
  have hne' : t.userId ≠ u2 := by
    rw [howner]
    exact fun hh => hne hh.symm
  have hfo := find_owned_none_of_other_user hids hne'
  have hlt : t ∉ list_tasks s u2 := by
    intro hmem
    unfold list_tasks at hmem
    have h2 := (List.mem_filter.mp hmem).2
    rw [decide_eq_true_eq] at h2
    exact hne' h2
  refine ⟨hlt, ?_, ?_, ?_, ?_, ?_, ?_, ?_⟩
  · intro hmem
    unfold list_pending at hmem
    exact hlt (List.mem_filter.mp hmem).1
  · intro hmem
    unfold list_completed at hmem
    exact hlt (List.mem_filter.mp hmem).1
  · intro hmem
    unfold list_overdue at hmem
    exact hlt (List.mem_filter.mp hmem).1
  · unfold get_task
    rw [hfo]
  · unfold update_task
    rw [hfo]
  · unfold complete_task
    rw [hfo]
  · unfold delete_task
    rw [hfo]

theorem owner_scoping_isolates_tasks_witness :
    (sampleTask ∈ sampleStore.tasks ∧ sampleTask.userId = 1 ∧
      (2 : Nat) ≠ 1 ∧
      ∀ x ∈ sampleStore.tasks, x.id = sampleTask.id → x = sampleTask) ∧
    (sampleTask ∉ list_tasks sampleStore 2 ∧
      sampleTask ∉ list_pending sampleStore 2 ∧
      sampleTask ∉ list_completed sampleStore 2 ∧
      sampleTask ∉ list_overdue sampleStore 2 0 ∧
      get_task sampleStore 2 sampleTask.id = .error .notFound ∧
      update_task sampleStore 2 0 sampleTask.id emptyPatch =
        .error .notFound ∧
      complete_task sampleStore 2 0 sampleTask.id = .error .notFound ∧
      delete_task sampleStore 2 sampleTask.id = .error .notFound) :=
  ⟨⟨by decide, rfl, by decide, by decide⟩,
   owner_scoping_isolates_tasks sampleStore sampleTask 1 2 0 emptyPatch
     (by decide) rfl (by decide) (by decide)⟩

theorem delete_user_tasks_eq (s : Store) (u : Nat) :
    (delete_user s u).tasks =
      s.tasks.filter (fun t => decide (t.userId ≠ u)) := rfl

/-- C8: deleting a user cascades to the user's tasks: a task owned by the
deleted user is no longer in the store, appears in no caller's task list,
and no caller can get it by its id (primary keys assumed unique, as the
database guarantees). -/
theorem delete_user_cascades_tasks (s : Store) (t : Task) (u : Nat)
    (ht : t ∈ s.tasks) (howner : t.userId = u)
    (hids : ∀ x ∈ s.tasks, x.id = t.id → x = t) :
    t ∉ (delete_user s u).tasks ∧
    ∀ caller : Nat, t ∉ list_tasks (delete_user s u) caller ∧
      get_task (delete_user s u) caller t.id = .error .notFound := by
  have hnotin : t ∉ (delete_user s u).tasks := by
    intro hmem
    rw [delete_user_tasks_eq] at hmem
    have h2 := (List.mem_filter.mp hmem).2
    rw [decide_eq_true_eq] at h2
    exact h2 howner
  refine ⟨hnotin, fun caller => ⟨?_, ?_⟩⟩
  · intro hmem
    unfold list_tasks at hmem
    exact hnotin (List.mem_filter.mp hmem).1
  · have hfo : find_owned (delete_user s u) caller t.id = none := by
      unfold find_owned
      rw [List.find?_eq_none]
      intro x hx hpx
      rw [delete_user_tasks_eq, List.mem_filter] at hx
      rw [decide_eq_true_eq] at hpx
      have hxne := hx.2
      rw [decide_eq_true_eq] at hxne
      obtain rfl := hids x hx.1 hpx.1
      exact hxne howner
    unfold get_task
    rw [hfo]

theorem delete_user_cascades_tasks_witness :
    (sampleTask ∈ sampleStore.tasks ∧ sampleTask.userId = 1 ∧
      ∀ x ∈ sampleStore.tasks, x.id = sampleTask.id → x = sampleTask) ∧
    sampleTask ∉ (delete_user sampleStore 1).tasks ∧
    sampleTask ∉ list_tasks (delete_user sampleStore 1) 2 ∧
    get_task (delete_user sampleStore 1) 2 sampleTask.id =
      .error .notFound :=
  ⟨⟨by decide, rfl, by decide⟩,
   (delete_user_cascades_tasks sampleStore sampleTask 1 (by decide) rfl
      (by decide)).1,
   ((delete_user_cascades_tasks sampleStore sampleTask 1 (by decide) rfl
      (by decide)).2 2).1,
   ((delete_user_cascades_tasks sampleStore sampleTask 1 (by decide) rfl
      (by decide)).2 2).2⟩

theorem get_or_create_token_hit (s : Store) (u : Nat) (f : String)
    (tk : AuthToken)
    (h : s.tokens.find? (fun t => decide (t.userId = u)) = some tk) :
    get_or_create_token s u f = (s, tk.key) := by
  unfold get_or_create_token
  simp only [h]

theorem get_or_create_token_users (s : Store) (u : Nat) (f : String) :
    ((get_or_create_token s u f).1).users = s.users := by
  unfold get_or_create_token
  cases hf : s.tokens.find? (fun t => decide (t.userId = u)) <;>
    simp only [hf]

theorem get_or_create_token_idem (s : Store) (u : Nat) (f1 f2 : String) :
    get_or_create_token (get_or_create_token s u f1).1 u f2 =
      get_or_create_token s u f1 := by
  cases hf : s.tokens.find? (fun t => decide (t.userId = u)) with
  | some tk =>
      rw [get_or_create_token_hit s u f1 tk hf]
      exact get_or_create_token_hit s u f2 tk hf
  | none =>
      have h1 : get_or_create_token s u f1 =
          ({ s with tokens := ⟨u, f1⟩ :: s.tokens }, f1) := by
        unfold get_or_create_token
        simp only [hf]
      rw [h1]
      have hfind : (AuthToken.mk u f1 :: s.tokens).find?
          (fun t => decide (t.userId = u)) = some ⟨u, f1⟩ :=
        List.find?_cons_of_pos _ (by simp)
      exact get_or_create_token_hit _ u f2 ⟨u, f1⟩ hfind

/-- C6: logging in twice with no intervening logout returns the same token
and leaves the store as it was after the first login; and when a token row
already exists for the user, get_or_create_token returns exactly that
token's key and does not change the store. -/
theorem login_issue_token_idempotent :
    (∀ (s : Store) (un pw f1 f2 : String) (s1 : Store) (k1 : String),
      login s un pw f1 = .ok (s1, k1) → login s1 un pw f2 = .ok (s1, k1)) ∧
    (∀ (s : Store) (u : Nat) (f : String) (tk : AuthToken),
      s.tokens.find? (fun t => decide (t.userId = u)) = some tk →
      get_or_create_token s u f = (s, tk.key)) := by
  constructor
  · intro s un pw f1 f2 s1 k1 h
    unfold login at h ⊢
    cases ha : authenticate s un pw with
    | none =>
        simp only [ha] at h
        exact Except.noConfusion h
    | some u =>
        simp only [ha] at h
        by_cases hact : u.isActive
        · rw [if_neg (not_not_intro hact)] at h
          rw [Except.ok.injEq] at h
          have hs1 : (get_or_create_token s u.id f1).1 = s1 := by rw [h]
          have hk1 : (get_or_create_token s u.id f1).2 = k1 := by rw [h]
          have ha2 : authenticate s1 un pw = some u := by
            unfold authenticate at ha ⊢
            rw [← hs1, get_or_create_token_users]
            exact ha
          simp only [ha2]
          rw [if_neg (not_not_intro hact), Except.ok.injEq]
          rw [← hs1, ← hk1, get_or_create_token_idem]
        · rw [if_pos hact] at h
          exact Except.noConfusion h
  · intro s u f tk h
    exact get_or_create_token_hit s u f tk h

theorem login_issue_token_idempotent_witness :
    login aliceStore "alice" "password1" "f1" = .ok (aliceStore, "t0") ∧
    login aliceStore "alice" "password1" "f2" = .ok (aliceStore, "t0") ∧
    aliceStore.tokens.find? (fun t => decide (t.userId = 0)) =
      some ⟨0, "t0"⟩ ∧
    get_or_create_token aliceStore 0 "f3" = (aliceStore, "t0") :=
  ⟨rfl,
   login_issue_token_idempotent.1 aliceStore "alice" "password1" "f1" "f2"
     aliceStore "t0" rfl,
   rfl,
   login_issue_token_idempotent.2 aliceStore 0 "f3" ⟨0, "t0"⟩ rfl⟩

/-- C7: logout with no token for the user fails with NoActiveSession (an
error returns no store, so the state is unchanged); logout with a token
present succeeds and deletes exactly the user's token rows, keeping every
other user's token. -/
theorem logout_session_lifecycle :
    (∀ (s : Store) (u : Nat), (∀ tk ∈ s.tokens, tk.userId ≠ u) →
      logout s u = .error .noActiveSession) ∧
    (∀ (s : Store) (u : Nat) (tk : AuthToken), tk ∈ s.tokens →
      tk.userId = u →
      logout s u = .ok { s with tokens := tokens_without s u } ∧
      (∀ t2 ∈ tokens_without s u, t2.userId ≠ u) ∧
      (∀ t2 ∈ s.tokens, t2.userId ≠ u → t2 ∈ tokens_without s u)) := by
  constructor
  · intro s u h
    unfold logout
    rw [if_neg]
    intro hany
    rw [List.any_eq_true] at hany
    obtain ⟨tk, htk, hdec⟩ := hany
    rw [decide_eq_true_eq] at hdec
    exact h tk htk hdec
  · intro s u tk htk hu
    refine ⟨?_, ?_, ?_⟩
    · unfold logout
      rw [if_pos]
      rw [List.any_eq_true]
      refine ⟨tk, htk, ?_⟩
      rw [decide_eq_true_eq]
      exact hu
    · intro t2 h2
      unfold tokens_without at h2
      have h3 := (List.mem_filter.mp h2).2
      rwa [decide_eq_true_eq] at h3
    · intro t2 h2 hne
      unfold tokens_without
      refine List.mem_filter.mpr ⟨h2, ?_⟩
      rw [decide_eq_true_eq]
      exact hne

theorem logout_session_lifecycle_witness :
    (∀ tk ∈ emptyStore.tokens, tk.userId ≠ (0 : Nat)) ∧
    logout emptyStore 0 = .error .noActiveSession ∧
    ((⟨0, "t0"⟩ : AuthToken) ∈ aliceStore.tokens ∧
      (⟨0, "t0"⟩ : AuthToken).userId = 0) ∧
    logout aliceStore 0 =
      .ok { aliceStore with tokens := tokens_without aliceStore 0 } :=
  ⟨by decide,
   logout_session_lifecycle.1 emptyStore 0 (by decide),
   ⟨by decide, rfl⟩,
   (logout_session_lifecycle.2 aliceStore 0 ⟨0, "t0"⟩ (by decide) rfl).1⟩

/-- C9: a task created without an explicit status is stored pending with
created_at set to the creation instant and appears in list_pending; calling
complete on it succeeds, the result is completed with updated_at refreshed,
appears in list_completed, and is in neither list_pending nor list_overdue
at any time. -/
theorem task_default_status_lifecycle (s : Store) (c : Nat) (now : Int)
    (inp : TaskInput) (s' : Store) (t : Task)
    (hc : create_task s c now inp = .ok (s', t))
    (hstat : inp.status = none) :
    t.status = .pending ∧ t.createdAt = now ∧ t ∈ list_pending s' c ∧
    ∀ now2 : Int, ∃ s'' t2,
      complete_task s' c now2 t.id = .ok (s'', t2) ∧
      t2.status = .completed ∧ t2.updatedAt = now2 ∧
      t2 ∈ list_completed s'' c ∧ t2 ∉ list_pending s'' c ∧
      ∀ now3 : Int, t2 ∉ list_overdue s'' c now3 := by
  obtain ⟨due, hvd, htdef, hsdef⟩ := create_task_ok_inv hc
  have htstat : t.status = .pending := by
    rw [htdef]
    simp [hstat]
  have htcre : t.createdAt = now := by rw [htdef]
  have htuser : t.userId = c := by rw [htdef]
  have hstasks : s'.tasks = t :: s.tasks := by rw [hsdef]
  refine ⟨htstat, htcre, ?_, ?_⟩
  · unfold list_pending list_tasks
    refine List.mem_filter.mpr ⟨List.mem_filter.mpr ⟨?_, ?_⟩, ?_⟩
    · rw [hstasks]
      exact List.mem_cons_self _ _
    · rw [decide_eq_true_eq]
      exact htuser
    · rw [decide_eq_true_eq]
      exact htstat
  · intro now2
    have hfo : find_owned s' c t.id = some t := by
      unfold find_owned
      rw [hstasks]
      exact List.find?_cons_of_pos _ (by simp [htuser])
    refine ⟨save_task s' { t with status := .completed, updatedAt := now2 },
      { t with status := .completed, updatedAt := now2 },
      ?_, rfl, rfl, ?_, ?_, ?_⟩
    · unfold complete_task
      rw [hfo]
    · unfold list_completed list_tasks
      refine List.mem_filter.mpr ⟨List.mem_filter.mpr ⟨?_, ?_⟩, ?_⟩
      · unfold save_task
        refine List.mem_map.mpr ⟨t, ?_, ?_⟩
        · rw [hstasks]
          exact List.mem_cons_self _ _
        · exact if_pos rfl
      · rw [decide_eq_true_eq]
        exact htuser
      · rw [decide_eq_true_eq]
    · intro hmem
      unfold list_pending at hmem
      have h2 := (List.mem_filter.mp hmem).2
      rw [decide_eq_true_eq] at h2
      exact Status.noConfusion h2
    · intro now3 hmem
      unfold list_overdue at hmem
      have h2 := (List.mem_filter.mp hmem).2
      rw [Bool.and_eq_true] at h2
      have h3 := h2.2
      rw [decide_eq_true_eq] at h3
      exact Status.noConfusion h3

theorem task_default_status_lifecycle_witness :
    create_task emptyStore 0 0 buyMilk = .ok (buyMilkStore, buyMilkTask) ∧
    buyMilk.status = none ∧
    (buyMilkTask.status = .pending ∧ buyMilkTask.createdAt = 0 ∧
      buyMilkTask ∈ list_pending buyMilkStore 0 ∧
      ∀ now2 : Int, ∃ s'' t2,
        complete_task buyMilkStore 0 now2 buyMilkTask.id = .ok (s'', t2) ∧
        t2.status = .completed ∧ t2.updatedAt = now2 ∧
        t2 ∈ list_completed s'' 0 ∧ t2 ∉ list_pending s'' 0 ∧
        ∀ now3 : Int, t2 ∉ list_overdue s'' 0 now3) :=
  ⟨rfl, rfl,
   task_default_status_lifecycle emptyStore 0 0 buyMilk buyMilkStore
     buyMilkTask rfl rfl⟩

/-- C2: the claim fails on the code. The duplicate-email check compares the
raw input against stored emails with a case-sensitive equality while emails
are stored lowercased, so with "a@b.com" registered, registering "A@b.com"
(the same address up to letter case) succeeds instead of failing with
DuplicateEmail, and stores a second user whose lowercased email is
identical to the existing one — contradicting the code's own comment that
the email is checked for uniqueness. -/
theorem duplicate_email_check_is_case_sensitive :
    caseVariantReg.email = "A@b.com" ∧ alice.email = "a@b.com" ∧
    alice ∈ aliceStore.users ∧
    register aliceStore caseVariantReg "t1" =
      .ok (⟨[bobDup, alice], [], [⟨1, "t1"⟩, ⟨0, "t0"⟩], 2, 0⟩, bobDup) ∧
    bobDup.email = alice.email :=
  ⟨rfl, rfl, by decide, by decide, rfl⟩

/-- C3: the claim fails on the code. validate_username rejects only values
that are both non-alphanumeric and underscore-free, so "a-b_c" — which
contains the dash, a character that is neither a letter, a digit nor an
underscore — is accepted because it also contains an underscore, and the
whole registration succeeds; the code's own error message says usernames
may contain only letters, numbers and underscores. -/
theorem username_charset_check_broken :
    dashUnderscoreReg.username = "a-b_c" ∧
    ('-' ∈ "a-b_c".data ∧ '-'.isAlphanum = false ∧ '-' ≠ '_') ∧
    validate_username "a-b_c" = .ok "a-b_c" ∧
    (register emptyStore dashUnderscoreReg "t1").isOk = true :=
  ⟨rfl, by decide, by decide, by decide⟩

end TaskAPI
